import Mathlib

/-!
Formal model of the wave-forecast extraction pipeline in `src/extract_info.py`
(class `MarineWeatherExtractor`): the condition classifier
`assess_wave_conditions`, the ingestion routine `process_wave_data`, and the
aggregator `get_daily_summary`.  Numeric measurements are embedded as exact
rationals (`ℚ`), absent values as `Option.none`, Python dicts (which preserve
insertion order) as association lists, and the raised-then-caught exceptions of
the ingestion loop as an `Except` computation.
-/

attribute [local semireducible] Rat.add Rat.mul Rat.inv Rat.sub Rat.ofScientific

/-- The four condition labels produced by the classifier (the strings
`'Good'`, `'OK'`, `'Bad'`, `'Unknown'` in the Python source). -/
inductive Condition where
  | Good
  | OK
  | Bad
  | Unknown
  deriving DecidableEq, Repr

/-- `MarineWeatherExtractor.assess_wave_conditions` (src/extract_info.py,
lines 88-136), translated branch by branch.  A `none` argument models a Python
`None`; the thresholds are the literal constants of the source. -/
def assess_wave_conditions (wave_height swell_height swell_period : Option ℚ) :
    Condition :=
  match wave_height, swell_height, swell_period with
  | some wh, some sh, some sp =>
    if wh > 4.0 then .Bad
    else if wh < 0.2 then .Bad
    else if sh < 0.4 then .Bad
    else if sp < 5.0 then .Bad
    else if 1.0 ≤ wh ∧ wh ≤ 3.2 ∧ 0.8 ≤ sh ∧ sh ≤ 3.2 ∧ 7.5 ≤ sp ∧ sp ≤ 15.0 then
      .Good
    else if 0.5 ≤ wh ∧ wh ≤ 4.0 ∧ 0.4 ≤ sh ∧ sh ≤ 3.8 ∧ 5.0 ≤ sp ∧ sp ≤ 18.0 then
      .OK
    else .Bad
  | _, _, _ => .Unknown

/-- First-match-wins evaluation of an ordered list of (guard, label) rules,
falling through to a default label.  This is the shape the specification
prescribes for the decision procedure. -/
def firstMatch (rules : List ((Option ℚ → Option ℚ → Option ℚ → Bool) × Condition))
    (dflt : Condition) (wh sh sp : Option ℚ) : Condition :=
  match rules with
  | [] => dflt
  | (guard, label) :: rest =>
    if guard wh sh sp then label else firstMatch rest dflt wh sh sp

/-- The specification's eight-step decision procedure, written as an explicit
ordered rule list (steps 1-7; step 8 is the default).  This definition follows
the spec text, to be compared against `assess_wave_conditions`. -/
def specRules : List ((Option ℚ → Option ℚ → Option ℚ → Bool) × Condition) :=
  [ (fun wh sh sp => wh.isNone || sh.isNone || sp.isNone, .Unknown),
    (fun wh _ _ => wh.elim false (fun w => decide (w > 4.0)), .Bad),
    (fun wh _ _ => wh.elim false (fun w => decide (w < 0.2)), .Bad),
    (fun _ sh _ => sh.elim false (fun s => decide (s < 0.4)), .Bad),
    (fun _ _ sp => sp.elim false (fun p => decide (p < 5.0)), .Bad),
    (fun wh sh sp =>
      match wh, sh, sp with
      | some w, some s, some p =>
        decide (1.0 ≤ w ∧ w ≤ 3.2 ∧ 0.8 ≤ s ∧ s ≤ 3.2 ∧ 7.5 ≤ p ∧ p ≤ 15.0)
      | _, _, _ => false, .Good),
    (fun wh sh sp =>
      match wh, sh, sp with
      | some w, some s, some p =>
        decide (0.5 ≤ w ∧ w ≤ 4.0 ∧ 0.4 ≤ s ∧ s ≤ 3.8 ∧ 5.0 ≤ p ∧ p ≤ 18.0)
      | _, _, _ => false, .OK) ]

/-- Spec-side classifier: the ordered rules with default `Bad`. -/
def classifySpec (wh sh sp : Option ℚ) : Condition :=
  firstMatch specRules .Bad wh sh sp

/-- Numeric value of a decimal digit character, `none` otherwise. -/
def digitVal (c : Char) : Option ℕ :=
  if c.isDigit then some (c.toNat - 48) else none

/-- Two decimal digits as a number. -/
def parse2 (a b : Char) : Option ℕ := do
  let x ← digitVal a
  let y ← digitVal b
  pure (10 * x + y)

/-- Four decimal digits as a number. -/
def parse4 (a b c d : Char) : Option ℕ := do
  let x ← parse2 a b
  let y ← parse2 c d
  pure (100 * x + y)

/-- Gregorian leap-year rule, as used by Python's `datetime` validation. -/
def isLeapYear (y : ℕ) : Bool :=
  y % 4 == 0 && (y % 100 != 0 || y % 400 == 0)

/-- Number of days in a month of a given year. -/
def daysInMonth (y m : ℕ) : ℕ :=
  if m = 2 then (if isLeapYear y then 29 else 28)
  else if m = 4 ∨ m = 6 ∨ m = 9 ∨ m = 11 then 30
  else 31

/-- A parsed `datetime.datetime` value: the literal calendar fields plus an
optional fixed UTC offset in minutes (`none` models a naive datetime). -/
structure PyDateTime where
  year : ℕ
  month : ℕ
  day : ℕ
  hour : ℕ
  minute : ℕ
  second : ℕ
  tzOffsetMinutes : Option ℤ
  deriving DecidableEq, Repr

/-- A `±HH:MM` UTC-offset suffix, in minutes. -/
def parseOffset : List Char → Option ℤ
  | [s, h1, h2, ':', m1, m2] => do
    let sign : ℤ ← if s = '+' then some 1 else if s = '-' then some (-1) else none
    let h ← parse2 h1 h2
    let m ← parse2 m1 m2
    if h < 24 ∧ m < 60 then some (sign * (h * 60 + m)) else none
  | _ => none

/-- The time-of-day part `HH:MM[:SS][±HH:MM]` of an ISO-8601 string. -/
def parseTime : List Char → Option (ℕ × ℕ × ℕ × Option ℤ)
  | h1 :: h2 :: ':' :: m1 :: m2 :: rest => do
    let h ← parse2 h1 h2
    let m ← parse2 m1 m2
    if h ≥ 24 ∨ m ≥ 60 then none
    else
      match rest with
      | [] => some (h, m, 0, none)
      | ':' :: s1 :: s2 :: rest2 => do
        let s ← parse2 s1 s2
        if s ≥ 60 then none
        else
          match rest2 with
          | [] => some (h, m, s, none)
          | off => do
            let o ← parseOffset off
            some (h, m, s, some o)
      | off => do
        let o ← parseOffset off
        some (h, m, 0, some o)
  | _ => none

/-- An ISO-8601 instant `YYYY-MM-DD[THH:MM[:SS][±HH:MM]]`, with the range
validation `datetime.fromisoformat` performs. -/
def parseISOChars : List Char → Option PyDateTime
  | y1 :: y2 :: y3 :: y4 :: '-' :: mo1 :: mo2 :: '-' :: d1 :: d2 :: rest => do
    let y ← parse4 y1 y2 y3 y4
    let mo ← parse2 mo1 mo2
    let d ← parse2 d1 d2
    if mo < 1 ∨ mo > 12 ∨ d < 1 ∨ d > daysInMonth y mo then none
    else
      match rest with
      | [] => some ⟨y, mo, d, 0, 0, 0, none⟩
      | sep :: timePart =>
        if sep = 'T' ∨ sep = ' ' then do
          let t ← parseTime timePart
          some ⟨y, mo, d, t.1, t.2.1, t.2.2.1, t.2.2.2⟩
        else none
  | _ => none

/-- `timestamp.replace('Z', '+00:00')`: every `Z` becomes `+00:00`. -/
def replaceZ : List Char → List Char
  | [] => []
  | 'Z' :: rest => '+' :: '0' :: '0' :: ':' :: '0' :: '0' :: replaceZ rest
  | c :: rest => c :: replaceZ rest

/-- `datetime.fromisoformat(timestamp.replace('Z', '+00:00'))` as used on
line 161 of src/extract_info.py, returning `none` where Python raises
`ValueError`. -/
def pyFromIsoformat (s : String) : Option PyDateTime :=
  parseISOChars (replaceZ s.data)

/-- A natural number zero-padded to two decimal digits. -/
def pad2 (n : ℕ) : String :=
  if n < 10 then "0" ++ toString n else toString n

/-- A natural number zero-padded to four decimal digits. -/
def pad4 (n : ℕ) : String :=
  if n < 10 then "000" ++ toString n
  else if n < 100 then "00" ++ toString n
  else if n < 1000 then "0" ++ toString n
  else toString n

/-- `date.strftime('%Y-%m-%d')`: the literal calendar date of the datetime
value, formatted in its own time zone (no conversion). -/
def dateKey (dt : PyDateTime) : String :=
  pad4 dt.year ++ "-" ++ pad2 dt.month ++ "-" ++ pad2 dt.day

/-- The calendar hour in UTC of a parsed instant, per the specification's
reading (`hour` must be "the timestamp's calendar hour in UTC"); a naive
datetime is taken at face value. -/
def utcHourSpec (dt : PyDateTime) : ℤ :=
  (((dt.hour : ℤ) * 60 + (dt.minute : ℤ) - dt.tzOffsetMinutes.getD 0) % 1440) / 60

/-- The `hourly` object of the API payload: each field is either absent (the
key is missing) or an array of numbers-or-null; `time` is an array of raw
timestamp strings. -/
structure HourlyData where
  time : Option (List String)
  wave_height : Option (List (Option ℚ))
  wave_direction : Option (List (Option ℚ))
  wind_wave_height : Option (List (Option ℚ))
  wind_wave_direction : Option (List (Option ℚ))
  swell_wave_height : Option (List (Option ℚ))
  swell_wave_direction : Option (List (Option ℚ))
  swell_wave_period : Option (List (Option ℚ))
  deriving DecidableEq

/-- One processed hourly record, the `wave_data` dict built on lines 175-186
of src/extract_info.py. -/
structure HourlySample where
  timestamp : String
  hour : ℕ
  wave_height : Option ℚ
  wave_direction : Option ℚ
  wind_wave_height : Option ℚ
  wind_wave_direction : Option ℚ
  swell_wave_height : Option ℚ
  swell_wave_direction : Option ℚ
  swell_wave_period : Option ℚ
  wave_condition : Condition
  deriving DecidableEq

/-- `hourly_data.get(field, [None])[i]`: a missing key defaults to the
one-element list `[None]`; indexing past the end raises `IndexError`,
modelled as `Except.error`. -/
def pyGet (arr : Option (List (Option ℚ))) (i : ℕ) : Except Unit (Option ℚ) :=
  match arr with
  | none => if i = 0 then .ok none else .error ()
  | some l =>
    match l[i]? with
    | some v => .ok v
    | none => .error ()

/-- The body of the per-timestamp loop after the date has been parsed:
field extraction (lines 168-170 and 179-184) and classification (line 173).
The source performs the seven lookups sequentially inside one `try`; since
every `IndexError` aborts the whole call identically, they are combined in a
single match: the result is `ok` exactly when all seven lookups succeed. -/
def buildSample (hd : HourlyData) (i : ℕ) (ts : String) (dt : PyDateTime) :
    Except Unit HourlySample :=
  match pyGet hd.wave_height i, pyGet hd.swell_wave_height i,
      pyGet hd.swell_wave_period i, pyGet hd.wave_direction i,
      pyGet hd.wind_wave_height i, pyGet hd.wind_wave_direction i,
      pyGet hd.swell_wave_direction i with
  | .ok wave_height, .ok swell_height, .ok swell_period, .ok wave_direction,
    .ok wind_wave_height, .ok wind_wave_direction, .ok swell_wave_direction =>
    .ok { timestamp := ts, hour := dt.hour, wave_height := wave_height,
          wave_direction := wave_direction, wind_wave_height := wind_wave_height,
          wind_wave_direction := wind_wave_direction,
          swell_wave_height := swell_height,
          swell_wave_direction := swell_wave_direction,
          swell_wave_period := swell_period,
          wave_condition :=
            assess_wave_conditions wave_height swell_height swell_period }
  | _, _, _, _, _, _, _ => .error ()

/-- `processed_data[date_key].append(...)` together with the lazy
`processed_data[date_key] = []`: append `v` to the entry keyed `k` of an
insertion-ordered dict, creating the entry at the end on first use. -/
def dictAppend (m : List (String × List HourlySample)) (k : String)
    (v : HourlySample) : List (String × List HourlySample) :=
  match m with
  | [] => [(k, [v])]
  | (k0, vs) :: rest =>
    if k0 = k then (k0, vs ++ [v]) :: rest else (k0, vs) :: dictAppend rest k v

/-- The `for i, timestamp in enumerate(times)` loop of `process_wave_data`
(lines 160-188): an unparseable timestamp or an out-of-range field access
raises, which aborts the whole loop. -/
def processLoop (hd : HourlyData) (i : ℕ) (ts : List String)
    (acc : List (String × List HourlySample)) :
    Except Unit (List (String × List HourlySample)) :=
  match ts with
  | [] => .ok acc
  | t :: rest =>
    match pyFromIsoformat t with
    | none => .error ()
    | some dt =>
      match buildSample hd i t dt with
      | .error e => .error e
      | .ok s => processLoop hd (i + 1) rest (dictAppend acc (dateKey dt) s)

/-- `MarineWeatherExtractor.process_wave_data` (lines 138-195): a falsy
payload or one without the `hourly` key returns `{}` (modelled by the `none`
case); any exception inside the loop is caught on line 193 and also returns
`{}`. -/
def process_wave_data (data : Option HourlyData) :
    List (String × List HourlySample) :=
  match data with
  | none => []
  | some hd =>
    match processLoop hd 0 (hd.time.getD []) [] with
    | .ok m => m
    | .error _ => []

/-- Total number of samples over all day buckets of a processed mapping. -/
def totalSamples (m : List (String × List HourlySample)) : ℕ :=
  (m.map (fun p => p.2.length)).sum

/-- Python's `max` over a nonempty list, as `max(x, rest...)`. -/
def pyMax (x : ℚ) (l : List ℚ) : ℚ := l.foldl max x

/-- Python's `min` over a nonempty list, as `min(x, rest...)`. -/
def pyMin (x : ℚ) (l : List ℚ) : ℚ := l.foldl min x

/-- One row of the daily summary dict built on lines 225-236 of
src/extract_info.py. -/
structure DailySummary where
  max_wave_height : ℚ
  min_wave_height : ℚ
  avg_wave_height : ℚ
  max_swell_height : Option ℚ
  avg_swell_period : Option ℚ
  data_points : ℕ
  good_conditions_hours : ℕ
  ok_conditions_hours : ℕ
  bad_conditions_hours : ℕ
  best_condition : Condition
  deriving DecidableEq

/-- The per-day body of `get_daily_summary` (lines 209-236): `none` when the
bucket is skipped (`continue` on an empty bucket, or no present wave height
so the `if wave_heights:` guard fails). -/
def summarize (hourly : List HourlySample) : Option DailySummary :=
  if hourly.isEmpty then none
  else
    let wave_heights := hourly.filterMap (fun d => d.wave_height)
    let swell_heights := hourly.filterMap (fun d => d.swell_wave_height)
    let swell_periods := hourly.filterMap (fun d => d.swell_wave_period)
    let wave_conditions :=
      (hourly.map (fun d => d.wave_condition)).filter
        (fun c => c ≠ Condition.Unknown)
    let good_hours := wave_conditions.count .Good
    let ok_hours := wave_conditions.count .OK
    let bad_hours := wave_conditions.count .Bad
    match wave_heights with
    | [] => none
    | wh :: whs =>
      some { max_wave_height := pyMax wh whs,
             min_wave_height := pyMin wh whs,
             avg_wave_height := (wh :: whs).sum / ((wh :: whs).length : ℚ),
             max_swell_height :=
               match swell_heights with
               | [] => none
               | sh :: shs => some (pyMax sh shs),
             avg_swell_period :=
               match swell_periods with
               | [] => none
               | _ :: _ => some (swell_periods.sum / (swell_periods.length : ℚ)),
             data_points := hourly.length,
             good_conditions_hours := good_hours,
             ok_conditions_hours := ok_hours,
             bad_conditions_hours := bad_hours,
             best_condition :=
               if good_hours > 0 then .Good
               else if ok_hours > 0 then .OK else .Bad }

/-- `MarineWeatherExtractor.get_daily_summary` (lines 197-238): one summary
entry per day bucket that survives `summarize`, in the dict's iteration
order. -/
def get_daily_summary (processed : List (String × List HourlySample)) :
    List (String × DailySummary) :=
  processed.filterMap (fun p => (summarize p.2).map (fun s => (p.1, s)))

/-- Keys of an insertion-ordered dict after touching key `k`: unchanged if
already present, appended at the end otherwise. -/
def insertKey (ks : List String) (k : String) : List String :=
  if k ∈ ks then ks else ks ++ [k]

/-- Adequacy of one field array for all indices below `n`: a present array
must have at least `n` entries, and a missing one (defaulting to `[None]`)
tolerates only index `0`. -/
def fieldAdequate (arr : Option (List (Option ℚ))) (n : ℕ) : Prop :=
  match arr with
  | none => n ≤ 1
  | some l => n ≤ l.length

instance (arr : Option (List (Option ℚ))) (n : ℕ) :
    Decidable (fieldAdequate arr n) := by
  unfold fieldAdequate
  cases arr <;> infer_instance

/-- Adequacy of all seven field arrays of a payload for indices below `n`. -/
def payloadAdequate (hd : HourlyData) (n : ℕ) : Prop :=
  fieldAdequate hd.wave_height n ∧ fieldAdequate hd.wave_direction n ∧
  fieldAdequate hd.wind_wave_height n ∧ fieldAdequate hd.wind_wave_direction n ∧
  fieldAdequate hd.swell_wave_height n ∧ fieldAdequate hd.swell_wave_direction n ∧
  fieldAdequate hd.swell_wave_period n

instance (hd : HourlyData) (n : ℕ) : Decidable (payloadAdequate hd n) := by
  unfold payloadAdequate
  infer_instance

/-- The relation the ingestor actually establishes between a sample and the
key of the bucket holding it: both the `hour` field and the date key are the
literal calendar fields of the parsed timestamp, in its own offset. -/
def SampleInv (k : String) (s : HourlySample) : Prop :=
  ∃ dt, pyFromIsoformat s.timestamp = some dt ∧ s.hour = dt.hour ∧ k = dateKey dt

/-- The processing step for index `j` of the time array raises an exception:
the timestamp does not parse, or some field lookup at `j` is out of range. -/
def stepFails (hd : HourlyData) (j : ℕ) : Prop :=
  ∃ t, (hd.time.getD [])[j]? = some t ∧
    (pyFromIsoformat t = none ∨
      ∃ dt, pyFromIsoformat t = some dt ∧
        ∃ e, buildSample hd j t dt = .error e)

/-- The seven (payload array, sample field) pairs, in the order the source
reads them into the `wave_data` dict. -/
def fieldPairs (hd : HourlyData) (s : HourlySample) :
    List (Option (List (Option ℚ)) × Option ℚ) :=
  [(hd.wave_height, s.wave_height),
   (hd.wave_direction, s.wave_direction),
   (hd.wind_wave_height, s.wind_wave_height),
   (hd.wind_wave_direction, s.wind_wave_direction),
   (hd.swell_wave_height, s.swell_wave_height),
   (hd.swell_wave_direction, s.swell_wave_direction),
   (hd.swell_wave_period, s.swell_wave_period)]

/-- A payload whose single timestamp carries the non-UTC offset `+02:00`
(01:00 local time, 23:00 UTC of the previous day). -/
def payloadOffset : HourlyData :=
  { time := some ["2024-06-01T01:00:00+02:00"],
    wave_height := some [some 1.5],
    wave_direction := some [some 180],
    wind_wave_height := some [some 0.5],
    wind_wave_direction := some [some 170],
    swell_wave_height := some [some 1.0],
    swell_wave_direction := some [some 270],
    swell_wave_period := some [some 8.0] }

/-- The datetime parsed from `"2024-06-01T01:00:00+02:00"`. -/
def dtOffset : PyDateTime := ⟨2024, 6, 1, 1, 0, 0, some 120⟩

/-- The sample `process_wave_data` builds from `payloadOffset`. -/
def sampleOffset : HourlySample :=
  { timestamp := "2024-06-01T01:00:00+02:00", hour := 1,
    wave_height := some 1.5, wave_direction := some 180,
    wind_wave_height := some 0.5, wind_wave_direction := some 170,
    swell_wave_height := some 1.0, swell_wave_direction := some 270,
    swell_wave_period := some 8.0, wave_condition := .Good }

/-- Two parseable timestamps but a `wave_height` array with one entry. -/
def payloadShortArray : HourlyData :=
  { time := some ["2024-06-01T00:00", "2024-06-01T01:00"],
    wave_height := some [some 1.5],
    wave_direction := some [some 180, some 185],
    wind_wave_height := some [none, none],
    wind_wave_direction := some [none, none],
    swell_wave_height := some [some 1.0, some 1.0],
    swell_wave_direction := some [some 270, some 270],
    swell_wave_period := some [some 8.0, some 8.0] }

/-- Two parseable timestamps but no `wave_height` array at all. -/
def payloadMissingArray : HourlyData :=
  { time := some ["2024-06-01T00:00", "2024-06-01T01:00"],
    wave_height := none,
    wave_direction := some [some 180, some 185],
    wind_wave_height := some [none, none],
    wind_wave_direction := some [none, none],
    swell_wave_height := some [some 1.0, some 1.0],
    swell_wave_direction := some [some 270, some 270],
    swell_wave_period := some [some 8.0, some 8.0] }

/-- A good first timestamp followed by an unparseable one; all field arrays
have two entries. -/
def payloadBadTimestamp : HourlyData :=
  { time := some ["2024-06-01T00:00", "notatimestamp"],
    wave_height := some [some 1.5, some 1.5],
    wave_direction := some [some 180, some 185],
    wind_wave_height := some [none, none],
    wind_wave_direction := some [none, none],
    swell_wave_height := some [some 1.0, some 1.0],
    swell_wave_direction := some [some 270, some 270],
    swell_wave_period := some [some 8.0, some 8.0] }

/-- `payloadBadTimestamp` cut down to its first (valid) timestamp. -/
def payloadFirstHourOnly : HourlyData :=
  { payloadBadTimestamp with time := some ["2024-06-01T00:00"] }

/-- The sample built from the first timestamp of `payloadBadTimestamp`. -/
def sampleFirstHour : HourlySample :=
  { timestamp := "2024-06-01T00:00", hour := 0,
    wave_height := some 1.5, wave_direction := some 180,
    wind_wave_height := none, wind_wave_direction := none,
    swell_wave_height := some 1.0, swell_wave_direction := some 270,
    swell_wave_period := some 8.0, wave_condition := .Good }

/-- A three-timestamp payload spanning two calendar days. -/
def payloadTwoDays : HourlyData :=
  { time := some ["2024-06-01T22:00", "2024-06-01T23:00", "2024-06-02T00:00"],
    wave_height := some [some 1.5, none, some 0.1],
    wave_direction := some [some 180, some 185, some 190],
    wind_wave_height := some [none, none, none],
    wind_wave_direction := some [some 170, none, some 160],
    swell_wave_height := some [some 1.0, some 1.1, some 0.3],
    swell_wave_direction := some [some 270, some 270, some 270],
    swell_wave_period := some [some 8.0, some 9.0, some 4.0] }

/-- An hourly record all of whose measurements are absent. -/
def sampleAbsent : HourlySample :=
  { timestamp := "2024-06-01T00:00", hour := 0, wave_height := none,
    wave_direction := none, wind_wave_height := none,
    wind_wave_direction := none, swell_wave_height := none,
    swell_wave_direction := none, swell_wave_period := none,
    wave_condition := .Unknown }

/-- An hourly record with a full set of measurements, classified `Good`. -/
def samplePresent : HourlySample :=
  { timestamp := "2024-06-02T05:00", hour := 5, wave_height := some 2.0,
    wave_direction := some 180, wind_wave_height := none,
    wind_wave_direction := none, swell_wave_height := some 1.5,
    swell_wave_direction := some 270, swell_wave_period := some 10.0,
    wave_condition := .Good }

/-- An hourly record with a present wave height, absent swell data,
classified `OK`. -/
def sampleLow : HourlySample :=
  { timestamp := "2024-06-02T06:00", hour := 6, wave_height := some 1.0,
    wave_direction := none, wind_wave_height := none,
    wind_wave_direction := none, swell_wave_height := none,
    swell_wave_direction := none, swell_wave_period := some 10.0,
    wave_condition := .OK }

/-- A grouped mapping with one all-absent day and one day with data. -/
def procTwoBuckets : List (String × List HourlySample) :=
  [("2024-06-01", [sampleAbsent]), ("2024-06-02", [samplePresent, sampleLow])]

/-- The sample built from index 0 of `payloadMissingArray`: the missing
`wave_height` array defaults to `[None]`, whose entry 0 is `None`. -/
def sampleNoWave : HourlySample :=
  { timestamp := "2024-06-01T00:00", hour := 0, wave_height := none,
    wave_direction := some 180, wind_wave_height := none,
    wind_wave_direction := none, swell_wave_height := some 1.0,
    swell_wave_direction := some 270, swell_wave_period := some 8.0,
    wave_condition := .Unknown }

theorem le_pyMax_init (x : ℚ) (l : List ℚ) : x ≤ pyMax x l := by
  induction l generalizing x with
  | nil => exact le_rfl
  | cons a l ih => exact le_trans (le_max_left x a) (ih (max x a))

theorem mem_le_pyMax (x : ℚ) (l : List ℚ) : ∀ y ∈ l, y ≤ pyMax x l := by
  induction l generalizing x with
  | nil => intro y hy; cases hy
  | cons a l ih =>
    intro y hy
    rcases List.mem_cons.1 hy with rfl | h
    · exact le_trans (le_max_right x y) (le_pyMax_init (max x y) l)
    · exact ih (max x a) y h

theorem pyMin_le_init (x : ℚ) (l : List ℚ) : pyMin x l ≤ x := by
  induction l generalizing x with
  | nil => exact le_rfl
  | cons a l ih => exact le_trans (ih (min x a)) (min_le_left x a)

theorem pyMin_le_mem (x : ℚ) (l : List ℚ) : ∀ y ∈ l, pyMin x l ≤ y := by
  induction l generalizing x with
  | nil => intro y hy; cases hy
  | cons a l ih =>
    intro y hy
    rcases List.mem_cons.1 hy with rfl | h
    · exact le_trans (pyMin_le_init (min x y) l) (min_le_right x y)
    · exact ih (min x a) y h

theorem avg_le_pyMax (x : ℚ) (l : List ℚ) :
    (x :: l).sum / (((x :: l).length : ℕ) : ℚ) ≤ pyMax x l := by
  have hlen : (0 : ℚ) < (((x :: l).length : ℕ) : ℚ) := by
    exact_mod_cast Nat.succ_pos l.length
  rw [div_le_iff₀ hlen]
  have hb : ∀ y ∈ x :: l, y ≤ pyMax x l := by
    intro y hy
    rcases List.mem_cons.1 hy with rfl | h
    · exact le_pyMax_init y l
    · exact mem_le_pyMax x l y h
  have hs := List.sum_le_card_nsmul (x :: l) (pyMax x l) hb
  rw [nsmul_eq_mul] at hs
  calc (x :: l).sum ≤ ((x :: l).length : ℚ) * pyMax x l := hs
  _ = pyMax x l * ((x :: l).length : ℚ) := by ring

theorem pyMin_le_avg (x : ℚ) (l : List ℚ) :
    pyMin x l ≤ (x :: l).sum / (((x :: l).length : ℕ) : ℚ) := by
  have hlen : (0 : ℚ) < (((x :: l).length : ℕ) : ℚ) := by
    exact_mod_cast Nat.succ_pos l.length
  rw [le_div_iff₀ hlen]
  have hb : ∀ y ∈ x :: l, pyMin x l ≤ y := by
    intro y hy
    rcases List.mem_cons.1 hy with rfl | h
    · exact pyMin_le_init y l
    · exact pyMin_le_mem x l y h
  have hs := List.card_nsmul_le_sum (x :: l) (pyMin x l) hb
  rw [nsmul_eq_mul] at hs
  calc pyMin x l * ((x :: l).length : ℚ) = ((x :: l).length : ℚ) * pyMin x l := by
        ring
  _ ≤ (x :: l).sum := hs

theorem condition_count_partition (l : List Condition) :
    l.count .Good + l.count .OK + l.count .Bad + l.count .Unknown = l.length := by
  induction l with
  | nil => rfl
  | cons a l ih => cases a <;> simp [List.count_cons] <;> omega

theorem summarize_eq_none_iff (b : List HourlySample) :
    summarize b = none ↔ ∀ s ∈ b, s.wave_height = none := by
  simp only [summarize]
  split
  · next hemp =>
    simp only [List.isEmpty_iff] at hemp
    subst hemp
    simp
  · next hemp =>
    split
    · next heq =>
      constructor
      · intro _ s hs
        exact List.filterMap_eq_nil_iff.1 heq s hs
      · intro _
        rfl
    · next wh whs heq =>
      constructor
      · intro hc
        exact absurd hc (by simp)
      · intro hall
        exfalso
        have hwh : wh ∈ b.filterMap (fun d => d.wave_height) := by
          rw [heq]
          exact List.mem_cons_self _ _
        obtain ⟨s, hs, hws⟩ := List.mem_filterMap.1 hwh
        rw [hall s hs] at hws
        cases hws

theorem assoc_key_unique {β : Type} (l : List (String × β))
    (hnd : (l.map Prod.fst).Nodup) (k : String) (b b' : β)
    (hb : (k, b) ∈ l) (hb' : (k, b') ∈ l) : b = b' := by
  induction l with
  | nil => cases hb
  | cons p rest ih =>
    rw [List.map_cons, List.nodup_cons] at hnd
    rcases List.mem_cons.1 hb with h1 | h1 <;> rcases List.mem_cons.1 hb' with h2 | h2
    · exact congrArg Prod.snd (h1.trans h2.symm)
    · exfalso
      apply hnd.1
      rw [show p.1 = k from (congrArg Prod.fst h1).symm]
      exact List.mem_map_of_mem Prod.fst h2
    · exfalso
      apply hnd.1
      rw [show p.1 = k from (congrArg Prod.fst h2).symm]
      exact List.mem_map_of_mem Prod.fst h1
    · exact ih hnd.2 h1 h2

theorem summary_key_mem (processed : List (String × List HourlySample))
    (k : String) (h : k ∈ (get_daily_summary processed).map Prod.fst) :
    ∃ b, (k, b) ∈ processed ∧ summarize b ≠ none := by
  obtain ⟨e, he, hek⟩ := List.mem_map.1 h
  obtain ⟨p, hp, hgp⟩ := List.mem_filterMap.1 he
  obtain ⟨s, hsome, hes⟩ := Option.map_eq_some'.1 hgp
  refine ⟨p.2, ?_, by simp [hsome]⟩
  have : p.1 = k := by rw [← hek, ← hes]
  rw [← this]
  exact hp

theorem summary_count_key (processed : List (String × List HourlySample))
    (hnd : (processed.map Prod.fst).Nodup) (k : String)
    (bucket : List HourlySample) (hmem : (k, bucket) ∈ processed)
    (hsome : summarize bucket ≠ none) :
    ((get_daily_summary processed).map Prod.fst).count k = 1 := by
  induction processed with
  | nil => cases hmem
  | cons p rest ih =>
    rw [List.map_cons, List.nodup_cons] at hnd
    rcases List.mem_cons.1 hmem with h1 | h1
    · obtain ⟨s, hs⟩ := Option.ne_none_iff_exists'.1 hsome
      have hk : p.1 = k := by rw [← h1]
      have hcount0 :
          ((get_daily_summary rest).map Prod.fst).count k = 0 := by
        rw [List.count_eq_zero]
        intro hk2
        obtain ⟨b, hb, _⟩ := summary_key_mem rest k hk2
        apply hnd.1
        rw [hk]
        exact List.mem_map_of_mem Prod.fst hb
      have hbp : p.2 = bucket := congrArg Prod.snd h1.symm
      simp only [get_daily_summary] at hcount0
      simp [get_daily_summary, hbp, hs, List.count_cons, hk, hcount0]
    · have hk : p.1 ≠ k := by
        intro hk
        apply hnd.1
        rw [hk]
        exact List.mem_map_of_mem Prod.fst h1
      have hrest := ih hnd.2 h1
      cases hgp : summarize p.2 with
      | none => simpa [get_daily_summary, hgp] using hrest
      | some s =>
        simpa [get_daily_summary, hgp, List.count_cons, hk] using hrest

theorem pyGet_ok_characterize (arr : Option (List (Option ℚ))) (i : ℕ)
    (v : Option ℚ) (h : pyGet arr i = .ok v) :
    (arr = none → i = 0 ∧ v = none) ∧
    (∀ l, arr = some l → i < l.length ∧ v = (l[i]?).getD none) := by
  cases arr with
  | none =>
    refine ⟨fun _ => ?_, fun l hl => by cases hl⟩
    by_cases hi : i = 0
    · subst hi
      simp [pyGet] at h
      exact ⟨rfl, h.symm⟩
    · simp [pyGet, hi] at h
  | some l0 =>
    refine ⟨fun hn => (nomatch hn), fun l hl => ?_⟩
    injection hl with hl
    subst hl
    cases hg : l0[i]? with
    | none => simp [pyGet, hg] at h
    | some w =>
      simp only [pyGet, hg, Except.ok.injEq] at h
      obtain ⟨hlt, _⟩ := List.getElem?_eq_some_iff.1 hg
      exact ⟨hlt, h.symm⟩

theorem pyGet_ok_of_adequate (arr : Option (List (Option ℚ))) (n i : ℕ)
    (ha : fieldAdequate arr n) (hi : i < n) : ∃ v, pyGet arr i = .ok v := by
  cases arr with
  | none =>
    unfold fieldAdequate at ha
    have : i = 0 := by omega
    subst this
    exact ⟨none, rfl⟩
  | some l =>
    unfold fieldAdequate at ha
    have hl : i < l.length := lt_of_lt_of_le hi ha
    exact ⟨l[i], by simp [pyGet, List.getElem?_eq_getElem hl]⟩

theorem buildSample_ok_fields (hd : HourlyData) (i : ℕ) (t : String)
    (dt : PyDateTime) (s : HourlySample) (h : buildSample hd i t dt = .ok s) :
    s.timestamp = t ∧ s.hour = dt.hour ∧
    s.wave_condition =
      assess_wave_conditions s.wave_height s.swell_wave_height
        s.swell_wave_period ∧
    pyGet hd.wave_height i = .ok s.wave_height ∧
    pyGet hd.swell_wave_height i = .ok s.swell_wave_height ∧
    pyGet hd.swell_wave_period i = .ok s.swell_wave_period ∧
    pyGet hd.wave_direction i = .ok s.wave_direction ∧
    pyGet hd.wind_wave_height i = .ok s.wind_wave_height ∧
    pyGet hd.wind_wave_direction i = .ok s.wind_wave_direction ∧
    pyGet hd.swell_wave_direction i = .ok s.swell_wave_direction := by
  cases e1 : pyGet hd.wave_height i with
  | error e => simp [buildSample, e1] at h
  | ok v1 =>
  cases e2 : pyGet hd.swell_wave_height i with
  | error e => simp [buildSample, e1, e2] at h
  | ok v2 =>
  cases e3 : pyGet hd.swell_wave_period i with
  | error e => simp [buildSample, e1, e2, e3] at h
  | ok v3 =>
  cases e4 : pyGet hd.wave_direction i with
  | error e => simp [buildSample, e1, e2, e3, e4] at h
  | ok v4 =>
  cases e5 : pyGet hd.wind_wave_height i with
  | error e => simp [buildSample, e1, e2, e3, e4, e5] at h
  | ok v5 =>
  cases e6 : pyGet hd.wind_wave_direction i with
  | error e => simp [buildSample, e1, e2, e3, e4, e5, e6] at h
  | ok v6 =>
  cases e7 : pyGet hd.swell_wave_direction i with
  | error e => simp [buildSample, e1, e2, e3, e4, e5, e6, e7] at h
  | ok v7 =>
    simp only [buildSample, e1, e2, e3, e4, e5, e6, e7, Except.ok.injEq] at h
    subst h
    refine ⟨rfl, rfl, rfl, ?_, ?_, ?_, ?_, ?_, ?_, ?_⟩ <;>
      simp [e1, e2, e3, e4, e5, e6, e7]

theorem buildSample_ok_of_adequate (hd : HourlyData) (n i : ℕ) (t : String)
    (dt : PyDateTime) (ha : payloadAdequate hd n) (hi : i < n) :
    ∃ s, buildSample hd i t dt = .ok s := by
  obtain ⟨a1, a2, a3, a4, a5, a6, a7⟩ := ha
  obtain ⟨v1, e1⟩ := pyGet_ok_of_adequate _ n i a1 hi
  obtain ⟨v2, e2⟩ := pyGet_ok_of_adequate _ n i a5 hi
  obtain ⟨v3, e3⟩ := pyGet_ok_of_adequate _ n i a7 hi
  obtain ⟨v4, e4⟩ := pyGet_ok_of_adequate _ n i a2 hi
  obtain ⟨v5, e5⟩ := pyGet_ok_of_adequate _ n i a3 hi
  obtain ⟨v6, e6⟩ := pyGet_ok_of_adequate _ n i a4 hi
  obtain ⟨v7, e7⟩ := pyGet_ok_of_adequate _ n i a6 hi
  unfold buildSample
  rw [e1, e2, e3, e4, e5, e6, e7]
  exact ⟨_, rfl⟩

theorem dictAppend_keys (m : List (String × List HourlySample)) (k : String)
    (v : HourlySample) :
    (dictAppend m k v).map Prod.fst = insertKey (m.map Prod.fst) k := by
  induction m with
  | nil => simp [dictAppend, insertKey]
  | cons p m ih =>
    obtain ⟨k0, vs⟩ := p
    by_cases hk : k0 = k
    · subst hk
      simp [dictAppend, insertKey]
    · by_cases hmem : k ∈ m.map Prod.fst
      · simp [dictAppend, hk, ih, insertKey, hmem, Ne.symm hk]
      · simp [dictAppend, hk, ih, insertKey, hmem, Ne.symm hk]

theorem totalSamples_dictAppend (m : List (String × List HourlySample))
    (k : String) (v : HourlySample) :
    totalSamples (dictAppend m k v) = totalSamples m + 1 := by
  induction m with
  | nil => simp [dictAppend, totalSamples]
  | cons p m ih =>
    obtain ⟨k0, vs⟩ := p
    by_cases hk : k0 = k
    · subst hk
      simp [dictAppend, totalSamples]
      omega
    · simp only [dictAppend, if_neg hk, totalSamples, List.map_cons,
        List.sum_cons] at *
      omega

theorem insertKey_nodup (ks : List String) (k : String) (h : ks.Nodup) :
    (insertKey ks k).Nodup := by
  unfold insertKey
  split
  · exact h
  · next hmem => simp [List.nodup_append, h, hmem]

theorem dictAppend_inv (m : List (String × List HourlySample)) (k : String)
    (v : HourlySample) (hm : ∀ q ∈ m, ∀ s ∈ q.2, SampleInv q.1 s)
    (hv : SampleInv k v) :
    ∀ q ∈ dictAppend m k v, ∀ s ∈ q.2, SampleInv q.1 s := by
  induction m with
  | nil =>
    intro q hq s hs
    simp only [dictAppend, List.mem_singleton] at hq
    subst hq
    simp only [List.mem_singleton] at hs
    subst hs
    exact hv
  | cons p m ih =>
    obtain ⟨k0, vs⟩ := p
    intro q hq s hs
    by_cases hk : k0 = k
    · subst hk
      rw [dictAppend, if_pos rfl] at hq
      rcases List.mem_cons.1 hq with rfl | hq2
      · rcases List.mem_append.1 hs with hs1 | hs1
        · exact hm (k0, vs) (List.mem_cons_self _ _) s hs1
        · rw [List.mem_singleton.1 hs1]
          exact hv
      · exact hm q (List.mem_cons_of_mem _ hq2) s hs
    · rw [dictAppend, if_neg hk] at hq
      rcases List.mem_cons.1 hq with rfl | hq2
      · exact hm (k0, vs) (List.mem_cons_self _ _) s hs
      · exact ih (fun q hq s hs => hm q (List.mem_cons_of_mem _ hq) s hs) q hq2 s hs

theorem processLoop_ok_props (hd : HourlyData) (ts : List String) :
    ∀ (i : ℕ) (acc m : List (String × List HourlySample)),
      processLoop hd i ts acc = .ok m →
      totalSamples m = totalSamples acc + ts.length ∧
      m.map Prod.fst =
        (ts.filterMap (fun t => (pyFromIsoformat t).map dateKey)).foldl
          insertKey (acc.map Prod.fst) ∧
      ((acc.map Prod.fst).Nodup → (m.map Prod.fst).Nodup) ∧
      ((∀ q ∈ acc, ∀ s ∈ q.2, SampleInv q.1 s) →
        ∀ q ∈ m, ∀ s ∈ q.2, SampleInv q.1 s) := by
  induction ts with
  | nil =>
    intro i acc m h
    simp only [processLoop, Except.ok.injEq] at h
    subst h
    simp
  | cons t rest ih =>
    intro i acc m h
    cases e1 : pyFromIsoformat t with
    | none => simp [processLoop, e1] at h
    | some dt =>
      cases e2 : buildSample hd i t dt with
      | error e => simp [processLoop, e1, e2] at h
      | ok s =>
        simp only [processLoop, e1, e2] at h
        obtain ⟨h1, h2, h3, h4⟩ := ih (i + 1) (dictAppend acc (dateKey dt) s) m h
        refine ⟨?_, ?_, ?_, ?_⟩
        · rw [h1, totalSamples_dictAppend]
          simp only [List.length_cons]
          omega
        · rw [h2, dictAppend_keys]
          simp [e1]
        · intro hnd
          apply h3
          rw [dictAppend_keys]
          exact insertKey_nodup _ _ hnd
        · intro hinv
          apply h4
          apply dictAppend_inv _ _ _ hinv
          obtain ⟨hts, hhr, -⟩ := buildSample_ok_fields hd i t dt s e2
          exact ⟨dt, by rw [hts]; exact e1, hhr, rfl⟩

theorem processLoop_ok_of_adequate (hd : HourlyData) (ts : List String) :
    ∀ (i : ℕ) (acc : List (String × List HourlySample)),
      (∀ t ∈ ts, (pyFromIsoformat t).isSome) →
      payloadAdequate hd (i + ts.length) →
      ∃ m, processLoop hd i ts acc = .ok m := by
  induction ts with
  | nil => exact fun i acc _ _ => ⟨acc, rfl⟩
  | cons t rest ih =>
    intro i acc hparse hadq
    obtain ⟨dt, hdt⟩ :=
      Option.isSome_iff_exists.1 (hparse t (List.mem_cons_self _ _))
    obtain ⟨s, hs⟩ :=
      buildSample_ok_of_adequate hd (i + (t :: rest).length) i t dt hadq
        (by simp)
    have hadq2 : payloadAdequate hd (i + 1 + rest.length) := by
      have he : i + 1 + rest.length = i + (t :: rest).length := by
        simp [List.length_cons]
        omega
      rw [he]
      exact hadq
    obtain ⟨m, hm⟩ :=
      ih (i + 1) (dictAppend acc (dateKey dt) s)
        (fun u hu => hparse u (List.mem_cons_of_mem _ hu)) hadq2
    exact ⟨m, by simp [processLoop, hdt, hs, hm]⟩

theorem processLoop_error_of_step (hd : HourlyData) (ts : List String) :
    ∀ (i : ℕ) (acc : List (String × List HourlySample)) (j : ℕ) (t : String),
      ts[j]? = some t →
      (pyFromIsoformat t = none ∨
        ∃ dt, pyFromIsoformat t = some dt ∧
          ∃ e, buildSample hd (i + j) t dt = .error e) →
      ∃ e, processLoop hd i ts acc = .error e := by
  induction ts with
  | nil =>
    intro i acc j t hj
    simp at hj
  | cons t0 rest ih =>
    intro i acc j t hj hbad
    cases j with
    | zero =>
      simp only [List.getElem?_cons_zero, Option.some.injEq] at hj
      subst hj
      rcases hbad with hnone | ⟨dt, hdt, e, he⟩
      · exact ⟨(), by simp [processLoop, hnone]⟩
      · simp only [Nat.add_zero] at he
        exact ⟨e, by simp [processLoop, hdt, he]⟩
    | succ j0 =>
      simp only [List.getElem?_cons_succ] at hj
      cases e1 : pyFromIsoformat t0 with
      | none => exact ⟨(), by simp [processLoop, e1]⟩
      | some dt0 =>
        cases e2 : buildSample hd i t0 dt0 with
        | error e0 => exact ⟨e0, by simp [processLoop, e1, e2]⟩
        | ok s0 =>
          have hbad2 : pyFromIsoformat t = none ∨
              ∃ dt, pyFromIsoformat t = some dt ∧
                ∃ e, buildSample hd (i + 1 + j0) t dt = .error e := by
            rcases hbad with h | ⟨dt, hdt, e, he⟩
            · exact Or.inl h
            · refine Or.inr ⟨dt, hdt, e, ?_⟩
              have harith : i + 1 + j0 = i + (j0 + 1) := by omega
              rw [harith]
              exact he
          obtain ⟨e, he⟩ :=
            ih (i + 1) (dictAppend acc (dateKey dt0) s0) j0 t hj hbad2
          exact ⟨e, by simp [processLoop, e1, e2, he]⟩

theorem process_empty_of_stepFails (hd : HourlyData) (j : ℕ)
    (h : stepFails hd j) : process_wave_data (some hd) = [] := by
  obtain ⟨t, hj, hbad⟩ := h
  obtain ⟨e, he⟩ :=
    processLoop_error_of_step hd (hd.time.getD []) 0 [] j t hj
      (by simpa [Nat.zero_add] using hbad)
  simp [process_wave_data, he]

/-- Claim C1: for every triple of inputs (each a rational or absent), the
classifier returns exactly the label prescribed by the specification's
eight-step ordered, first-match-wins decision procedure; being a total
function, it never fails. -/
theorem assess_matches_spec_procedure (wh sh sp : Option ℚ) :
    assess_wave_conditions wh sh sp = classifySpec wh sh sp := by
  cases wh with
  | none => cases sh <;> cases sp <;> rfl
  | some w =>
    cases sh with
    | none => cases sp <;> rfl
    | some s =>
      cases sp with
      | none => rfl
      | some p =>
        simp only [assess_wave_conditions, classifySpec, specRules, firstMatch,
          Option.isNone_some, Option.elim_some, Bool.or_self, Bool.or_false,
          Bool.false_or, if_false, decide_eq_true_eq]
        split_ifs <;> simp_all

/-- Claim C9: the classifier's values on the literal boundary inputs of the
specification, and `Unknown` whenever any single input is absent. -/
theorem assess_boundary_cases :
    assess_wave_conditions (some 1.0) (some 0.8) (some 7.5) = .Good ∧
    assess_wave_conditions (some 3.2) (some 3.2) (some 15.0) = .Good ∧
    assess_wave_conditions (some 0.99) (some 0.8) (some 7.5) = .OK ∧
    assess_wave_conditions (some 4.0) (some 3.0) (some 18.0) = .OK ∧
    assess_wave_conditions (some 4.0001) (some 3.0) (some 18.0) = .Bad ∧
    assess_wave_conditions (some 0.19) (some 0.5) (some 6.0) = .Bad ∧
    (∀ wh sh sp : Option ℚ, wh = none ∨ sh = none ∨ sp = none →
      assess_wave_conditions wh sh sp = .Unknown) := by
  refine ⟨by decide, by decide, by decide, by decide, by decide, by decide, ?_⟩
  rintro wh sh sp (rfl | rfl | rfl)
  · cases sh <;> cases sp <;> rfl
  · cases wh <;> cases sp <;> rfl
  · cases wh <;> cases sh <;> rfl

/-- Witness for C9: the absent-input clause applied at a concrete input. -/
theorem assess_boundary_cases_witness :
    assess_wave_conditions none (some 0.8) (some 7.5) = .Unknown :=
  assess_boundary_cases.2.2.2.2.2.2 none (some 0.8) (some 7.5) (Or.inl rfl)

/-- Claim C5: in any grouped mapping (distinct day keys), a day bucket whose
samples all lack `wave_height` contributes no entry to the daily summary,
while a day with at least one present `wave_height` gets exactly one entry. -/
theorem summary_omission_rule (processed : List (String × List HourlySample))
    (hnd : (processed.map Prod.fst).Nodup) (k : String)
    (bucket : List HourlySample) (hmem : (k, bucket) ∈ processed) :
    ((∀ s ∈ bucket, s.wave_height = none) →
      k ∉ (get_daily_summary processed).map Prod.fst) ∧
    ((∃ s ∈ bucket, s.wave_height ≠ none) →
      ((get_daily_summary processed).map Prod.fst).count k = 1) := by
  constructor
  · intro habs hk
    obtain ⟨b, hb, hbs⟩ := summary_key_mem processed k hk
    have hbb : b = bucket := assoc_key_unique processed hnd k b bucket hb hmem
    subst hbb
    exact hbs ((summarize_eq_none_iff b).2 habs)
  · rintro ⟨s0, hs0, hs0p⟩
    apply summary_count_key processed hnd k bucket hmem
    intro hnone
    exact hs0p ((summarize_eq_none_iff bucket).1 hnone s0 hs0)

/-- Witness for C5: a concrete two-day mapping in which the all-absent day
`2024-06-01` is omitted and the day `2024-06-02` appears exactly once. -/
theorem summary_omission_rule_witness :
    "2024-06-01" ∉ (get_daily_summary procTwoBuckets).map Prod.fst ∧
    ((get_daily_summary procTwoBuckets).map Prod.fst).count "2024-06-02" = 1 :=
  ⟨(summary_omission_rule procTwoBuckets (by decide) "2024-06-01"
      [sampleAbsent] (by decide)).1 (by decide),
   (summary_omission_rule procTwoBuckets (by decide) "2024-06-02"
      [samplePresent, sampleLow] (by decide)).2
      ⟨samplePresent, by decide, by decide⟩⟩

/-- Claim C6: every summary produced from a day bucket satisfies
`min_wave_height ≤ avg_wave_height ≤ max_wave_height`, the average being the
arithmetic mean of the present wave heights, and `data_points` equals the
bucket's total size. -/
theorem aggregation_soundness (bucket : List HourlySample) (ds : DailySummary)
    (h : summarize bucket = some ds) :
    ds.min_wave_height ≤ ds.avg_wave_height ∧
    ds.avg_wave_height ≤ ds.max_wave_height ∧
    ds.avg_wave_height =
      (bucket.filterMap (fun d => d.wave_height)).sum /
        ((bucket.filterMap (fun d => d.wave_height)).length : ℚ) ∧
    ds.data_points = bucket.length := by
  simp only [summarize] at h
  split at h
  · exact absurd h (by simp)
  · split at h
    · exact absurd h (by simp)
    · next wh whs heq =>
      rw [Option.some.injEq] at h
      subst h
      refine ⟨pyMin_le_avg wh whs, avg_le_pyMax wh whs, ?_, rfl⟩
      rw [heq]

/-- Witness for C6: the two-sample bucket of day `2024-06-02`, whose summary
has min 1, average 3/2, max 2 and counts both samples. -/
theorem aggregation_soundness_witness :
    (1 : ℚ) ≤ 3 / 2 ∧ (3 / 2 : ℚ) ≤ 2 ∧
    (2 : ℕ) = [samplePresent, sampleLow].length := by
  have h := aggregation_soundness [samplePresent, sampleLow]
    { max_wave_height := 2, min_wave_height := 1, avg_wave_height := 3 / 2,
      max_swell_height := some 1.5, avg_swell_period := some 10,
      data_points := 2, good_conditions_hours := 1, ok_conditions_hours := 1,
      bad_conditions_hours := 0, best_condition := .Good } (by decide)
  exact ⟨h.1, h.2.1, h.2.2.2⟩

/-- Claim C7: in every produced daily summary the three hour counters count
exactly the samples whose condition is `Good`, `OK`, `Bad` respectively,
`Unknown` samples count towards none of them (the four counts partition
`data_points`), and `best_condition` follows the Good-then-OK-then-Bad rule. -/
theorem condition_counts (bucket : List HourlySample) (ds : DailySummary)
    (h : summarize bucket = some ds) :
    ds.good_conditions_hours =
      (bucket.map (fun d => d.wave_condition)).count .Good ∧
    ds.ok_conditions_hours =
      (bucket.map (fun d => d.wave_condition)).count .OK ∧
    ds.bad_conditions_hours =
      (bucket.map (fun d => d.wave_condition)).count .Bad ∧
    ds.good_conditions_hours + ds.ok_conditions_hours +
      ds.bad_conditions_hours +
      (bucket.map (fun d => d.wave_condition)).count .Unknown =
      ds.data_points ∧
    ds.best_condition =
      (if 0 < ds.good_conditions_hours then Condition.Good
        else if 0 < ds.ok_conditions_hours then Condition.OK
        else Condition.Bad) := by
  simp only [summarize] at h
  split at h
  · exact absurd h (by simp)
  · split at h
    · exact absurd h (by simp)
    · next wh whs heq =>
      rw [Option.some.injEq] at h
      subst h
      have hg :
          ((bucket.map (fun d => d.wave_condition)).filter
            (fun c => c ≠ Condition.Unknown)).count Condition.Good =
            (bucket.map (fun d => d.wave_condition)).count Condition.Good :=
        List.count_filter (by decide)
      have hok :
          ((bucket.map (fun d => d.wave_condition)).filter
            (fun c => c ≠ Condition.Unknown)).count Condition.OK =
            (bucket.map (fun d => d.wave_condition)).count Condition.OK :=
        List.count_filter (by decide)
      have hbad :
          ((bucket.map (fun d => d.wave_condition)).filter
            (fun c => c ≠ Condition.Unknown)).count Condition.Bad =
            (bucket.map (fun d => d.wave_condition)).count Condition.Bad :=
        List.count_filter (by decide)
      refine ⟨hg, hok, hbad, ?_, rfl⟩
      show ((bucket.map (fun d => d.wave_condition)).filter
          (fun c => c ≠ Condition.Unknown)).count Condition.Good + _ + _ + _ = _
      rw [hg, hok, hbad]
      have hp := condition_count_partition (bucket.map (fun d => d.wave_condition))
      simpa using hp

/-- Witness for C7: a three-sample bucket with one `Good`, one `OK` and one
`Unknown` sample; the counters are 1, 1, 0 and partition the three samples. -/
theorem condition_counts_witness :
    (1 : ℕ) =
      ([samplePresent, sampleLow, sampleAbsent].map
        (fun d => d.wave_condition)).count Condition.Good ∧
    1 + 1 + 0 +
      ([samplePresent, sampleLow, sampleAbsent].map
        (fun d => d.wave_condition)).count Condition.Unknown = 3 := by
  have h := condition_counts [samplePresent, sampleLow, sampleAbsent]
    { max_wave_height := 2, min_wave_height := 1, avg_wave_height := 3 / 2,
      max_swell_height := some 1.5, avg_swell_period := some 10,
      data_points := 3, good_conditions_hours := 1, ok_conditions_hours := 1,
      bad_conditions_hours := 0, best_condition := .Good } (by decide)
  exact ⟨h.1, h.2.2.2.1⟩

/-- Counterexample to C2: the timestamp `2024-06-01T01:00:00+02:00` is stored
with `hour = 1` (its own offset's calendar hour) although its calendar hour
in UTC is 23, so the sample's `hour` is not the UTC hour. -/
theorem sample_hour_not_utc :
    process_wave_data (some payloadOffset) = [("2024-06-01", [sampleOffset])] ∧
    pyFromIsoformat sampleOffset.timestamp = some dtOffset ∧
    sampleOffset.hour = 1 ∧ utcHourSpec dtOffset = 23 ∧
    (sampleOffset.hour : ℤ) ≠ utcHourSpec dtOffset := by
  exact ⟨by decide, by decide, rfl, by decide, by decide⟩

/-- Amended C2: every ingested sample's `hour` and day-bucket key are the
literal calendar hour and date of its parsed timestamp, in the timestamp's
own UTC offset, with no conversion; for a timestamp in UTC (trailing `Z`,
`+00:00`, or naive) this coincides with the UTC calendar hour. -/
theorem sample_hour_local_amended :
    (∀ (data : Option HourlyData), ∀ q ∈ process_wave_data data, ∀ s ∈ q.2,
      SampleInv q.1 s) ∧
    (∀ dt : PyDateTime,
      dt.tzOffsetMinutes = none ∨ dt.tzOffsetMinutes = some 0 →
      dt.hour < 24 → dt.minute < 60 → utcHourSpec dt = dt.hour) := by
  constructor
  · intro data q hq s hs
    match data with
    | none => simp [process_wave_data] at hq
    | some hd =>
      rcases hloop : processLoop hd 0 (hd.time.getD []) [] with e | m
      · rw [show process_wave_data (some hd) = [] from by
          simp [process_wave_data, hloop]] at hq
        cases hq
      · rw [show process_wave_data (some hd) = m from by
          simp [process_wave_data, hloop]] at hq
        exact (processLoop_ok_props hd _ 0 [] m hloop).2.2.2
          (by simp) q hq s hs
  · intro dt hoff h24 h60
    rcases hoff with h | h <;> simp [utcHourSpec, h] <;> omega

/-- Witness for C2 (amended): the sample of `payloadOffset` satisfies the
local-calendar invariant, and a `+00:00` timestamp's stored hour is its UTC
hour. -/
theorem sample_hour_local_amended_witness :
    SampleInv "2024-06-01" sampleOffset ∧
    utcHourSpec ⟨2024, 6, 1, 5, 0, 0, some 0⟩ = 5 :=
  ⟨sample_hour_local_amended.1 (some payloadOffset)
      ("2024-06-01", [sampleOffset]) (by decide) sampleOffset (by decide),
   sample_hour_local_amended.2 ⟨2024, 6, 1, 5, 0, 0, some 0⟩ (Or.inr rfl)
      (by decide) (by decide)⟩

/-- Counterexample to C3: two parseable timestamps with the `wave_height`
array missing entirely; the claim demands two samples with absent
`wave_height`, but the call returns the empty mapping. -/
theorem missing_array_not_absent :
    (payloadMissingArray.time.getD []).length = 2 ∧
    pyFromIsoformat "2024-06-01T00:00" ≠ none ∧
    pyFromIsoformat "2024-06-01T01:00" ≠ none ∧
    process_wave_data (some payloadMissingArray) = [] := by decide

/-- Amended C3: a null entry of a present, long-enough field array yields the
absent value for that field (other fields unaffected); a missing array yields
absent only at index 0; any out-of-range lookup — a missing array at index
at least 1, or a too-short array — makes the whole call return the empty
mapping. -/
theorem field_values_amended :
    (∀ (hd : HourlyData) (i : ℕ) (t : String) (dt : PyDateTime)
      (s : HourlySample), buildSample hd i t dt = .ok s →
      ∀ pr ∈ fieldPairs hd s,
        (pr.1 = none → i = 0 ∧ pr.2 = none) ∧
        (∀ l, pr.1 = some l → i < l.length ∧ pr.2 = (l[i]?).getD none)) ∧
    (∀ (hd : HourlyData) (j : ℕ), stepFails hd j →
      process_wave_data (some hd) = []) := by
  constructor
  · intro hd i t dt s h pr hpr
    obtain ⟨-, -, -, e1, e2, e3, e4, e5, e6, e7⟩ :=
      buildSample_ok_fields hd i t dt s h
    simp only [fieldPairs, List.mem_cons, List.not_mem_nil, or_false] at hpr
    rcases hpr with rfl | rfl | rfl | rfl | rfl | rfl | rfl
    · exact pyGet_ok_characterize _ _ _ e1
    · exact pyGet_ok_characterize _ _ _ e4
    · exact pyGet_ok_characterize _ _ _ e5
    · exact pyGet_ok_characterize _ _ _ e6
    · exact pyGet_ok_characterize _ _ _ e2
    · exact pyGet_ok_characterize _ _ _ e7
    · exact pyGet_ok_characterize _ _ _ e3
  · exact fun hd j h => process_empty_of_stepFails hd j h

/-- Witness for C3 (amended): at index 0 of `payloadMissingArray` the missing
array gives an absent wave height and the present swell array gives its first
entry, while index 1 aborts the whole call. -/
theorem field_values_amended_witness :
    (0 = 0 ∧ sampleNoWave.wave_height = none) ∧
    (0 < 2 ∧ sampleNoWave.swell_wave_height =
      ((([some 1.0, some 1.0] : List (Option ℚ))[0]?).getD none)) ∧
    process_wave_data (some payloadMissingArray) = [] := by
  have h := field_values_amended.1 payloadMissingArray 0 "2024-06-01T00:00"
    ⟨2024, 6, 1, 0, 0, 0, none⟩ sampleNoWave rfl
  refine ⟨?_, ?_, ?_⟩
  · exact (h (payloadMissingArray.wave_height, sampleNoWave.wave_height)
      (by decide)).1 rfl
  · exact (h (payloadMissingArray.swell_wave_height,
      sampleNoWave.swell_wave_height) (by decide)).2 [some 1.0, some 1.0] rfl
  · exact field_values_amended.2 payloadMissingArray 1
      ⟨"2024-06-01T01:00", by decide,
       Or.inr ⟨⟨2024, 6, 1, 1, 0, 0, none⟩, by decide, ⟨(), rfl⟩⟩⟩

/-- Counterexample to C4: a payload with an unparseable timestamp makes the
call return exactly the same empty mapping as a missing payload — the
failure outcome is not distinguishable from the missing-payload result. -/
theorem bad_timestamp_same_as_missing :
    pyFromIsoformat "notatimestamp" = none ∧
    "notatimestamp" ∈ payloadBadTimestamp.time.getD [] ∧
    process_wave_data (some payloadBadTimestamp) = process_wave_data none := by
  decide

/-- Amended C4: an unparseable timestamp anywhere in the time array makes the
whole call return the empty mapping (no partial result, samples before the
bad timestamp discarded), which is the same value as for a missing payload. -/
theorem bad_timestamp_aborts_amended :
    (∀ (hd : HourlyData) (t : String), t ∈ hd.time.getD [] →
      pyFromIsoformat t = none → process_wave_data (some hd) = []) ∧
    process_wave_data none = [] := by
  constructor
  · intro hd t hmem hnone
    obtain ⟨j, hj⟩ := List.mem_iff_getElem?.1 hmem
    exact process_empty_of_stepFails hd j ⟨t, hj, Or.inl hnone⟩
  · rfl

/-- Witness for C4 (amended): applied to `payloadBadTimestamp`. -/
theorem bad_timestamp_aborts_amended_witness :
    process_wave_data (some payloadBadTimestamp) = [] :=
  bad_timestamp_aborts_amended.1 payloadBadTimestamp "notatimestamp"
    (by decide) (by decide)

/-- Counterexample to C8: both timestamps of `payloadShortArray` parse, yet
its one-entry `wave_height` array makes the call return the empty mapping,
so the bucket sizes sum to 0, not to the time array's length 2. -/
theorem grouping_short_array_counterexample :
    pyFromIsoformat "2024-06-01T00:00" ≠ none ∧
    pyFromIsoformat "2024-06-01T01:00" ≠ none ∧
    (payloadShortArray.time.getD []).length = 2 ∧
    totalSamples (process_wave_data (some payloadShortArray)) = 0 := by
  decide

/-- Amended C8: when all timestamps parse and, in addition, every field array
is adequate for every index of the time array (present with enough entries,
or missing with at most one timestamp), each input index yields exactly one
sample, bucket sizes sum to the input length, keys are distinct, and the
mapping lists the distinct dates in first-encounter order. -/
theorem grouping_correct_amended (hd : HourlyData)
    (hparse : ∀ t ∈ hd.time.getD [], (pyFromIsoformat t).isSome)
    (hadq : payloadAdequate hd (hd.time.getD []).length) :
    totalSamples (process_wave_data (some hd)) = (hd.time.getD []).length ∧
    ((process_wave_data (some hd)).map Prod.fst).Nodup ∧
    (process_wave_data (some hd)).map Prod.fst =
      ((hd.time.getD []).filterMap
        (fun t => (pyFromIsoformat t).map dateKey)).foldl insertKey [] := by
  obtain ⟨m, hm⟩ := processLoop_ok_of_adequate hd (hd.time.getD []) 0 []
    hparse (by simpa using hadq)
  have hp : process_wave_data (some hd) = m := by
    simp [process_wave_data, hm]
  obtain ⟨h1, h2, h3, -⟩ := processLoop_ok_props hd (hd.time.getD []) 0 [] m hm
  rw [hp]
  refine ⟨?_, h3 (by simp), ?_⟩
  · simpa [totalSamples] using h1
  · simpa using h2

/-- Witness for C8 (amended): the three-timestamp, two-day payload. -/
theorem grouping_correct_amended_witness :
    totalSamples (process_wave_data (some payloadTwoDays)) = 3 ∧
    ((process_wave_data (some payloadTwoDays)).map Prod.fst).Nodup := by
  have h := grouping_correct_amended payloadTwoDays (by decide) (by decide)
  exact ⟨h.1, h.2.1⟩

/-- Claim C10: `process_wave_data` always returns a well-formed mapping
(distinct keys) and never raises: a missing payload returns the empty
mapping, and any exception inside the loop is caught and also yields the
empty mapping, discarding samples already processed — shown concretely by
`payloadBadTimestamp`, whose valid first timestamp alone (in
`payloadFirstHourOnly`) would have produced a sample. -/
theorem process_never_raises :
    (∀ data : Option HourlyData,
      ((process_wave_data data).map Prod.fst).Nodup) ∧
    (∀ (hd : HourlyData) (e : Unit),
      processLoop hd 0 (hd.time.getD []) [] = .error e →
      process_wave_data (some hd) = []) ∧
    process_wave_data none = [] ∧
    process_wave_data (some payloadBadTimestamp) = [] ∧
    process_wave_data (some payloadFirstHourOnly) =
      [("2024-06-01", [sampleFirstHour])] := by
  refine ⟨?_, ?_, rfl, by decide, by decide⟩
  · intro data
    match data with
    | none => simp [process_wave_data]
    | some hd =>
      rcases hloop : processLoop hd 0 (hd.time.getD []) [] with e | m
      · simp [process_wave_data, hloop]
      · rw [show process_wave_data (some hd) = m from by
          simp [process_wave_data, hloop]]
        exact (processLoop_ok_props hd _ 0 [] m hloop).2.2.1 (by simp)
  · intro hd e he
    simp [process_wave_data, he]

/-- Witness for C10: the caught-error clause applied to the short-array
payload, whose loop raises an `IndexError` at index 1. -/
theorem process_never_raises_witness :
    process_wave_data (some payloadShortArray) = [] :=
  process_never_raises.2.1 payloadShortArray () rfl
